import Mathlib

set_option linter.all false

namespace Lampo

/-! # Shallow embedding of the lampo on-chain wallet and off-chain payment engines

This development embeds `src/lampo-bdk-wallet/src/lib.rs` (the
`BDKWalletManager` implementation of `WalletManager`) and
`src/lampod/src/ln/offchain_manager.rs` (the `OffchainManager`).

External library calls (BDK chain reconciliation, the LDK channel engine,
the BOLT11 invoice codec, the `bitcoin_hashes` SHA-256) are modelled
explicitly; each such definition carries a doc comment saying what it
models and from where.  Machine integers are `Nat` with explicit
`% 2 ^ w` where overflow matters; fallible operations return `Except`.
-/

/-- Bitcoin network, mirroring `lampo_common::conf::Network` (a re-export of
`bitcoin::Network`), as matched on in `BDKWalletManager::sync`. -/
inductive Network where
  | bitcoin
  | testnet
  | signet
  | regtest
  deriving DecidableEq

/-! ## SHA-256, modelling `bitcoin_hashes::sha256::Hash::hash`

`OffchainManager::keysend` computes `Sha256::hash(&preimage_bytes)`.  The
`bitcoin_hashes` crate implements FIPS 180-4 SHA-256; we embed that
algorithm over byte lists (`List Nat`, each entry `< 256`), with 32-bit
words as `Nat` reduced `% 2 ^ 32`. -/

/-- `2 ^ 32`, the word modulus of SHA-256. -/
def w32 : Nat := 4294967296

/-- Right rotation of a 32-bit word by `n` places (arithmetic form: for
`x < 2 ^ 32` this equals the usual `(x >>> n) ||| (x <<< (32 - n))`). -/
def rotr32 (n x : Nat) : Nat := (x / 2 ^ n + x % 2 ^ n * 2 ^ (32 - n)) % w32

/-- SHA-256 Σ₀. -/
def bigS0 (x : Nat) : Nat := rotr32 2 x ^^^ rotr32 13 x ^^^ rotr32 22 x

/-- SHA-256 Σ₁. -/
def bigS1 (x : Nat) : Nat := rotr32 6 x ^^^ rotr32 11 x ^^^ rotr32 25 x

/-- SHA-256 σ₀. -/
def smallS0 (x : Nat) : Nat := rotr32 7 x ^^^ rotr32 18 x ^^^ x / 2 ^ 3

/-- SHA-256 σ₁. -/
def smallS1 (x : Nat) : Nat := rotr32 17 x ^^^ rotr32 19 x ^^^ x / 2 ^ 10

/-- SHA-256 Ch(x,y,z): for 32-bit words, `¬x` is `2^32 - 1 - x`. -/
def ch (x y z : Nat) : Nat := (x &&& y) ^^^ ((w32 - 1 - x % w32) &&& z)

/-- SHA-256 Maj(x,y,z). -/
def maj (x y z : Nat) : Nat := (x &&& y) ^^^ (x &&& z) ^^^ (y &&& z)

/-- The 64 SHA-256 round constants (fractional parts of the cube roots of
the first 64 primes, as 32-bit words). -/
def sha256K : List Nat :=
  [1116352408, 1899447441, 3049323471, 3921009573, 961987163, 1508970993,
   2453635748, 2870763221, 3624381080, 310598401, 607225278, 1426881987,
   1925078388, 2162078206, 2614888103, 3248222580, 3835390401, 4022224774,
   264347078, 604807628, 770255983, 1249150122, 1555081692, 1996064986,
   2554220882, 2821834349, 2952996808, 3210313671, 3336571891, 3584528711,
   113926993, 338241895, 666307205, 773529912, 1294757372, 1396182291,
   1695183700, 1986661051, 2177026350, 2456956037, 2730485921, 2820302411,
   3259730800, 3345764771, 3516065817, 3600352804, 4094571909, 275423344,
   430227734, 506948616, 659060556, 883997877, 958139571, 1322822218,
   1537002063, 1747873779, 1955562222, 2024104815, 2227730452, 2361852424,
   2428436474, 2756734187, 3204031479, 3329325298]

/-- Big-endian 8-byte encoding of a (already reduced) 64-bit length. -/
def lenBytes64 (n : Nat) : List Nat :=
  [n / 2 ^ 56 % 256, n / 2 ^ 48 % 256, n / 2 ^ 40 % 256, n / 2 ^ 32 % 256,
   n / 2 ^ 24 % 256, n / 2 ^ 16 % 256, n / 2 ^ 8 % 256, n % 256]

/-- SHA-256 padding: append `0x80`, zeros to 56 mod 64, then the bit length. -/
def sha256pad (msg : List Nat) : List Nat :=
  msg ++ [128] ++ List.replicate ((119 - msg.length % 64) % 64) 0
      ++ lenBytes64 (8 * msg.length % 2 ^ 64)

/-- Group bytes into big-endian 32-bit words. -/
def toWords32 : List Nat → List Nat
  | a :: b :: c :: d :: rest =>
      (a * 2 ^ 24 + b * 2 ^ 16 + c * 2 ^ 8 + d) % w32 :: toWords32 rest
  | _ => []

/-- Split a word stream into 16-word blocks. -/
def chunks16 : List Nat → List (List Nat)
  | w0 :: w1 :: w2 :: w3 :: w4 :: w5 :: w6 :: w7 ::
    w8 :: w9 :: w10 :: w11 :: w12 :: w13 :: w14 :: w15 :: rest =>
      [w0, w1, w2, w3, w4, w5, w6, w7, w8, w9, w10, w11, w12, w13, w14, w15]
        :: chunks16 rest
  | _ => []

/-- Next word of the SHA-256 message schedule. -/
def nextW (w : List Nat) : Nat :=
  let n := w.length
  (w.getD (n - 16) 0 + smallS0 (w.getD (n - 15) 0) + w.getD (n - 7) 0
      + smallS1 (w.getD (n - 2) 0)) % w32

/-- Extend the message schedule by `k` words. -/
def extendW : List Nat → Nat → List Nat
  | w, 0 => w
  | w, k + 1 => extendW (w ++ [nextW w]) k

/-- The eight 32-bit working variables / hash state of SHA-256. -/
structure Hash8 where
  a : Nat
  b : Nat
  c : Nat
  d : Nat
  e : Nat
  f : Nat
  g : Nat
  h : Nat
  deriving DecidableEq

/-- One SHA-256 compression round, consuming a (constant, schedule word) pair. -/
def round1 (st : Hash8) (kw : Nat × Nat) : Hash8 :=
  let t1 := (st.h + bigS1 st.e + ch st.e st.f st.g + kw.1 + kw.2) % w32
  let t2 := (bigS0 st.a + maj st.a st.b st.c) % w32
  ⟨(t1 + t2) % w32, st.a, st.b, st.c, (st.d + t1) % w32, st.e, st.f, st.g⟩

/-- SHA-256 compression of one 16-word block. -/
def compress (st : Hash8) (block : List Nat) : Hash8 :=
  let w := extendW block 48
  let t := (sha256K.zip w).foldl round1 st
  ⟨(st.a + t.a) % w32, (st.b + t.b) % w32, (st.c + t.c) % w32,
   (st.d + t.d) % w32, (st.e + t.e) % w32, (st.f + t.f) % w32,
   (st.g + t.g) % w32, (st.h + t.h) % w32⟩

/-- The SHA-256 initial hash value (fractional parts of the square roots of
the first 8 primes). -/
def sha256init : Hash8 :=
  ⟨1779033703, 3144134277, 1013904242, 2773480762,
   1359893119, 2600822924, 528734635, 1541459225⟩

/-- Big-endian bytes of a 32-bit word. -/
def word2bytes (x : Nat) : List Nat :=
  [x / 2 ^ 24 % 256, x / 2 ^ 16 % 256, x / 2 ^ 8 % 256, x % 256]

/-- SHA-256 of a byte string, as the 32-byte digest.  Models
`bitcoin_hashes::sha256::Hash::hash(..).into_inner()`. -/
def sha256 (msg : List Nat) : List Nat :=
  let st := (chunks16 (toWords32 (sha256pad msg))).foldl compress sha256init
  word2bytes st.a ++ word2bytes st.b ++ word2bytes st.c ++ word2bytes st.d ++
  word2bytes st.e ++ word2bytes st.f ++ word2bytes st.g ++ word2bytes st.h

/-! ## Wallet data model (`BDKWalletManager`, `src/lampo-bdk-wallet/src/lib.rs`)

The wallet state held inside `Wallet<Store<ChangeSet>>` is a BDK value; the
lampo source orchestrates it (`sync`, `get_balance`, `build_tx`,
`list_unspent`).  The state itself and BDK's update semantics are modelled
from the spec (sections 3 and 4.2), as the BDK implementation is not part
of this repository. -/

/-- A checkpoint: a (height, block-hash) pair of the checkpoint ledger
(spec section 3); block hashes are abstracted to `Nat`. -/
structure Checkpoint where
  height : Nat
  hash : Nat
  deriving DecidableEq

/-- A wallet-tracked transaction output (spec section 3 UTXO record):
outpoint (txid, vout), owning script-pubkey, value in satoshis, spent
flag, confirmation height with `0` meaning unconfirmed. -/
structure LocalUtxo where
  txid : Nat
  vout : Nat
  spk : Nat
  value : Nat
  spent : Bool
  height : Nat
  deriving DecidableEq

/-- An output report from the chain data source for a watched
script-pubkey: the same fields the remote view exposes per outpoint. -/
structure RemoteOut where
  txid : Nat
  vout : Nat
  spk : Nat
  value : Nat
  spent : Bool
  height : Nat
  deriving DecidableEq

/-- The mutable wallet state: UTXO set, checkpoint ledger, and the revealed
script-pubkeys of both keychain branches (spec section 3). -/
structure WalletState where
  utxos : List LocalUtxo
  checkpoints : List Checkpoint
  spks : List Nat
  deriving DecidableEq

/-- The chain data source's current view: its checkpoint chain and the
outputs it reports per script-pubkey (spec section 6, chain data source). -/
structure RemoteView where
  chain : List Checkpoint
  outs : List RemoteOut
  deriving DecidableEq

/-- Observable effects of a wallet operation.  `netScan` is the esplora
`client.scan(...)` call and `netGetHeight` the `client.get_height()` call
in `BDKWalletManager::sync`; both perform network I/O. -/
inductive Eff where
  | netScan
  | netGetHeight
  deriving DecidableEq

/-- Whether an effect is a network operation. -/
def Eff.isNet : Eff → Bool
  | .netScan => true
  | .netGetHeight => true

/-- The esplora endpoint chosen by `BDKWalletManager::sync`: mainnet and
testnet have hard-coded URLs; any other network is rejected with
`network not supported` before anything else happens. -/
def esplora_url (net : Network) : Except String String :=
  match net with
  | .bitcoin => .ok "https://mempool.space/api"
  | .testnet => .ok "https://mempool.space/testnet/api"
  | _ => .error "network not supported"

/-- The outpoint key of a remote output report. -/
def RemoteOut.outpoint (o : RemoteOut) : Nat × Nat := (o.txid, o.vout)

/-- Modelled from the spec: the divergence height of a reorganization, the
smallest height among locally stored checkpoints that the remote chain no
longer agrees with (spec section 4.2 step 2); `none` when every local
checkpoint is still present remotely. -/
def divergeHeight (cps : List Checkpoint) (r : RemoteView) : Option Nat :=
  ((cps.filter (fun c => decide (c ∉ r.chain))).map Checkpoint.height).min?

/-- Modelled from the spec: roll back all UTXOs confirmed at or above the
divergence height to unconfirmed (spec section 4.2 step 2). -/
def rollback (us : List LocalUtxo) : Option Nat → List LocalUtxo
  | none => us
  | some d => us.map (fun u => if d ≤ u.height then { u with height := 0 } else u)

/-- A fresh UTXO record created from a remote output report (spec
section 3: created when a new output paying a watched script-pubkey is
observed). -/
def RemoteOut.toUtxo (o : RemoteOut) : LocalUtxo :=
  ⟨o.txid, o.vout, o.spk, o.value, o.spent, o.height⟩

/-- Overwrite the chain-derived fields of a tracked UTXO with the remote
report for its outpoint (marking spent, updating confirmation height). -/
def updateUtxo (u : LocalUtxo) (o : RemoteOut) : LocalUtxo :=
  { u with spk := o.spk, value := o.value, spent := o.spent, height := o.height }

/-- One tracked UTXO after the remote reports are applied: overwritten
from the remote report for its outpoint when the remote mentions it. -/
def applyOne (outs : List RemoteOut) (u : LocalUtxo) : LocalUtxo :=
  match outs.find? (fun o => o.txid == u.txid && o.vout == u.vout) with
  | some o => updateUtxo u o
  | none => u

/-- The remote reports whose outpoint the wallet does not track yet. -/
def newOuts (us : List LocalUtxo) (outs : List RemoteOut) : List RemoteOut :=
  outs.filter (fun o => !us.any (fun u => u.txid == o.txid && u.vout == o.vout))

/-- Modelled from the spec: apply the discovered outputs to the UTXO set
(spec section 4.2 step 4): every tracked outpoint is updated from its
remote report, UTXOs are never removed, and reports for unknown outpoints
create new UTXO records. -/
def applyOuts (us : List LocalUtxo) (outs : List RemoteOut) : List LocalUtxo :=
  us.map (applyOne outs) ++ (newOuts us outs).map RemoteOut.toUtxo

/-- Modelled from the spec (section 4.2, the algorithm behind BDK's
`client.scan` / `wallet.apply_update` / `wallet.commit` in
`BDKWalletManager::sync`): detect a reorganization and roll back, discard
stale checkpoints, apply outputs discovered for watched script-pubkeys,
and append the new checkpoints. -/
def syncState (s : WalletState) (r : RemoteView) : WalletState :=
  let d := divergeHeight s.checkpoints r
  let us := rollback s.utxos d
  let keep := s.checkpoints.filter (fun c => decide (c ∈ r.chain))
  let cps := keep ++ r.chain.filter (fun c => decide (c ∉ keep))
  let outs := r.outs.filter (fun o => o.spk ∈ s.spks)
  { s with utxos := applyOuts us outs, checkpoints := cps }

/-- The outcome of one `BDKWalletManager::sync` call: the `Result` value,
the wallet state afterwards, and the trace of observable effects. -/
structure SyncResult where
  result : Except String Unit
  state : WalletState
  trace : List Eff

/-- `BDKWalletManager::sync`: choose the esplora endpoint by network
(bailing out on unsupported networks before touching the wallet), scan the
chain source over all keychain script-pubkeys, apply and commit the
update, then query the tip height. -/
def sync (net : Network) (s : WalletState) (r : RemoteView) : SyncResult :=
  match esplora_url net with
  | .error e => ⟨.error e, s, []⟩
  | .ok _ => ⟨.ok (), syncState s r, [.netScan, .netGetHeight]⟩

/-! ## Balance and balance query -/

/-- Modelled from BDK's `Wallet::get_balance` contract: the wallet balance
split into the confirmed part (unspent outputs with a confirmation height)
and the pending part (unspent outputs still unconfirmed, height `0`). -/
structure Balance where
  confirmed : Nat
  pending : Nat
  deriving DecidableEq

/-- Modelled from BDK's `Wallet::get_balance` contract: sum the unspent
UTXOs, confirmed and unconfirmed separately. -/
def get_balance (s : WalletState) : Balance :=
  ⟨((s.utxos.filter (fun u => !u.spent && u.height != 0)).map LocalUtxo.value).sum,
   ((s.utxos.filter (fun u => !u.spent && u.height == 0)).map LocalUtxo.value).sum⟩

/-- `WalletManager::get_onchain_balance` for `BDKWalletManager`: run
`self.sync()?`, then return `get_balance().confirmed`. -/
def get_onchain_balance (net : Network) (s : WalletState) (r : RemoteView) :
    Except String Nat :=
  let sr := sync net s r
  match sr.result with
  | .error e => .error e
  | .ok _ => .ok (get_balance sr.state).confirmed

/-! ## Transaction building (`BDKWalletManager::create_transaction`)

The source drives BDK's `TxBuilder`:
`tx.add_recipient(script, amount).fee_rate(FeeRate::from_sat_per_kvb(fee_rate)).enable_rbf()`
followed by `finish`, `sign` and `finalize_psbt`.  The builder record
mirrors the chained calls; coin selection, fee estimation and the RBF
sequence values realize BDK's contract, modelled from the spec
(section 4.3). -/

/-- A transaction input: the spent outpoint and its nSequence value. -/
structure TxIn where
  txid : Nat
  vout : Nat
  sequence : Nat
  deriving DecidableEq

/-- A finalized transaction: inputs and (script-pubkey, value) outputs. -/
structure Transaction where
  inputs : List TxIn
  outputs : List (Nat × Nat)
  deriving DecidableEq

/-- BIP125 replace-by-fee signaling: some input has nSequence below
`0xFFFFFFFE`. -/
def Transaction.signalsRbf (tx : Transaction) : Bool :=
  tx.inputs.any (fun i => i.sequence < 4294967294)

/-- The BDK `TxBuilder` parameters accumulated by the chained calls in
`create_transaction`: recipients, fee rate (sat/kvB) and the RBF flag. -/
structure TxBuilder where
  recipients : List (Nat × Nat)
  feeRate : Nat
  rbf : Bool
  deriving DecidableEq

/-- `TxBuilder::add_recipient`. -/
def TxBuilder.add_recipient (b : TxBuilder) (script amount : Nat) : TxBuilder :=
  { b with recipients := b.recipients ++ [(script, amount)] }

/-- `TxBuilder::fee_rate` with a rate in satoshis per 1000 vbytes. -/
def TxBuilder.fee_rate (b : TxBuilder) (rate : Nat) : TxBuilder :=
  { b with feeRate := rate }

/-- `TxBuilder::enable_rbf`: request BIP125 signaling on all inputs. -/
def TxBuilder.enable_rbf (b : TxBuilder) : TxBuilder :=
  { b with rbf := true }

/-- The empty builder produced by `wallet.build_tx()`. -/
def TxBuilder.new : TxBuilder := ⟨[], 0, false⟩

/-- Modelled from the spec (section 4.3): estimated fee in satoshis for a
transaction shape at a sat/kvB rate, from an estimated virtual size. -/
def fee_estimate (rate nin nout : Nat) : Nat :=
  rate * (40 + 68 * nin + 31 * nout) / 1000

/-- Sum of the values of selected UTXOs. -/
def sumValue (us : List LocalUtxo) : Nat := (us.map LocalUtxo.value).sum

/-- Modelled from the spec (section 4.3): deterministic coin selection —
walk the candidate UTXOs in order, accumulating until the selection covers
amount plus the estimated fee; `none` when the candidates cannot cover it. -/
def select_coins : List LocalUtxo → Nat → Nat → List LocalUtxo →
    Option (List LocalUtxo)
  | cands, amount, rate, acc =>
    if sumValue acc ≥ amount + fee_estimate rate acc.length 2 then some acc
    else
      match cands with
      | [] => none
      | c :: rest => select_coins rest amount rate (acc ++ [c])

/-- The dust threshold below which change is folded into the fee (spec
section 4.3). -/
def dustLimit : Nat := 546

/-- The nSequence value BDK assigns to inputs when RBF is enabled, and the
non-signaling value otherwise. -/
def rbfSequence (rbf : Bool) : Nat := if rbf then 4294967293 else 4294967294

/-- The script-pubkey of a freshly derived internal-keychain change address
(spec section 4.3); derived from the wallet's revealed key material. -/
def changeScript (s : WalletState) : Nat := s.spks.length

/-- Modelled from the spec (section 4.3, realizing BDK's
`TxBuilder::finish` + `sign` + `finalize_psbt` contract): select confirmed
unspent coins, build one recipient output plus a change output when change
exceeds the dust threshold, and stamp every input with the builder's RBF
sequence.  Fails with `insufficient funds` when the coins cannot cover
amount plus fee, and rejects an empty selection (a transaction must spend
at least one input). -/
def tx_finish (s : WalletState) (b : TxBuilder) : Except String Transaction :=
  let amount := (b.recipients.map Prod.snd).sum
  let cands := s.utxos.filter (fun u => !u.spent && u.height != 0)
  match select_coins cands amount b.feeRate [] with
  | none => .error "insufficient funds"
  | some sel =>
    if sel.isEmpty then .error "insufficient funds" else
    let fee := fee_estimate b.feeRate sel.length 2
    let change := sumValue sel - amount - fee
    let outs :=
      if dustLimit < change then b.recipients ++ [(changeScript s, change)]
      else b.recipients
    .ok ⟨sel.map (fun u => ⟨u.txid, u.vout, rbfSequence b.rbf⟩), outs⟩

/-- The outcome of `BDKWalletManager::create_transaction`: the `Result`,
the wallet state afterwards, and the trace of observable effects. -/
structure BuildResult where
  result : Except String Transaction
  state : WalletState
  trace : List Eff

/-- `BDKWalletManager::create_transaction`: first `self.sync()?`, then
build with `add_recipient(script, amount).fee_rate(fee_rate).enable_rbf()`
and finish/sign/finalize on the freshly synced wallet. -/
def create_transaction (net : Network) (s : WalletState) (r : RemoteView)
    (script amount fee_rate : Nat) : BuildResult :=
  let sr := sync net s r
  match sr.result with
  | .error e => ⟨.error e, sr.state, sr.trace⟩
  | .ok _ =>
    let b := ((TxBuilder.new.add_recipient script amount).fee_rate
        fee_rate).enable_rbf
    ⟨tx_finish sr.state b, sr.state, sr.trace⟩

/-! ## UTXO listing (`BDKWalletManager::list_transactions`) -/

/-- The UTXO record exposed by the wallet API, mirroring
`lampo_common::model::response::Utxo` as filled in by
`list_transactions`. -/
structure Utxo where
  txid : Nat
  vout : Nat
  reserved : Bool
  confirmed : Nat
  amount_msat : Nat
  deriving DecidableEq

/-- Models `bdk::bitcoin::Amount::from_btc(v as f64).unwrap().to_sat()` on
a satoshi value `v`: the satoshi count is reinterpreted as a BTC amount,
which multiplies it by `10 ^ 8`.  For `v * 10 ^ 8 ≤ 2 ^ 53` the `f64`
round trip is exact, so the integer model is exact on that range. -/
def from_btc_to_sat (v : Nat) : Nat := v * 100000000

/-- The `amount_msat` value `list_transactions` reports for a UTXO of `v`
satoshis: `Amount::from_btc(v as f64).unwrap().to_sat() * 1000`. -/
def amount_msat_of (v : Nat) : Nat := from_btc_to_sat v * 1000

/-- `BDKWalletManager::list_transactions`: run `self.sync()?`, then map
every unspent wallet UTXO to a response record with `reserved` set from
the spent flag, `confirmed` hard-coded to `0`, and `amount_msat` computed
through the `Amount::from_btc` round trip. -/
def list_transactions (net : Network) (s : WalletState) (r : RemoteView) :
    Except String (List Utxo) :=
  let sr := sync net s r
  match sr.result with
  | .error e => .error e
  | .ok _ =>
    .ok ((sr.state.utxos.filter (fun u => !u.spent)).map (fun u =>
      ⟨u.txid, u.vout, u.spent, 0, amount_msat_of u.value⟩))

/-! ## Off-chain manager (`src/lampod/src/ln/offchain_manager.rs`)

`OffchainManager` drives the LDK channel engine.  The BOLT11 invoice type
and its text codec live in the `lightning-invoice` crate, outside this
repository; they are modelled from the spec (section 6, invoice text
encoding): a checksum-protected symbol string carrying network, optional
amount, payment hash, payment secret, description, expiry, timestamp.
Invoice text is modelled as the decoded symbol sequence (`List Nat`). -/

/-- The currency prefix of a BOLT11 invoice, mirroring
`lightning_invoice::Currency`. -/
inductive Currency where
  | bitcoin
  | bitcoinTestnet
  | signet
  | regtest
  deriving DecidableEq

/-- `Currency::try_from(network)` as called by
`OffchainManager::generate_invoice`: every configured network has a
currency encoding in the LDK version in use. -/
def currency_try_from (net : Network) : Except String Currency :=
  match net with
  | .bitcoin => .ok .bitcoin
  | .testnet => .ok .bitcoinTestnet
  | .signet => .ok .signet
  | .regtest => .ok .regtest

/-- A decoded BOLT11 invoice (spec sections 3 and 6): network currency,
optional amount in msat, 32-byte payment hash, payment secret, description
bytes, expiry seconds and issuance timestamp. -/
structure Bolt11Invoice where
  currency : Currency
  amount_msat : Option Nat
  payment_hash : List Nat
  payment_secret : List Nat
  description : List Nat
  expiry : Nat
  timestamp : Nat
  deriving DecidableEq

/-- Symbol code of a currency in the invoice text. -/
def currencyCode : Currency → Nat
  | .bitcoin => 0
  | .bitcoinTestnet => 1
  | .signet => 2
  | .regtest => 3

/-- Parse a currency symbol code. -/
def decodeCurrency : Nat → Option Currency
  | 0 => some .bitcoin
  | 1 => some .bitcoinTestnet
  | 2 => some .signet
  | 3 => some .regtest
  | _ => none

/-- Encode an optional amount: tag `0` for absent, tag `1` then the value. -/
def encodeOpt : Option Nat → List Nat
  | none => [0]
  | some n => [1, n]

/-- Read back an optional amount, returning the remaining symbols. -/
def readOpt : List Nat → Option (Option Nat × List Nat)
  | 0 :: rest => some (none, rest)
  | 1 :: n :: rest => some (some n, rest)
  | _ => none

/-- Encode a length-prefixed field. -/
def encodeBlob (l : List Nat) : List Nat := l.length :: l

/-- Read back a length-prefixed field, returning the remaining symbols. -/
def readBlob : List Nat → Option (List Nat × List Nat)
  | n :: rest => if n ≤ rest.length then some (rest.take n, rest.drop n) else none
  | [] => none

/-- The checksum protecting the invoice text (spec section 6). -/
def invoiceChecksum (body : List Nat) : Nat := (body.sum + body.length) % 997

/-- Modelled from the spec (section 6): the body of the invoice text, all
fields in a fixed order. -/
def encodeBody (i : Bolt11Invoice) : List Nat :=
  currencyCode i.currency :: encodeOpt i.amount_msat
    ++ encodeBlob i.payment_hash ++ encodeBlob i.payment_secret
    ++ encodeBlob i.description ++ [i.expiry, i.timestamp]

/-- Modelled from the spec (section 6): render an invoice as its
checksum-protected text (symbol sequence). -/
def encodeInvoice (i : Bolt11Invoice) : List Nat :=
  encodeBody i ++ [invoiceChecksum (encodeBody i)]

/-- Parse the invoice body (everything but the checksum). -/
def parseBody (body : List Nat) : Except String Bolt11Invoice :=
  match body with
  | [] => .error "malformed invoice"
  | c :: rest =>
    match decodeCurrency c with
    | none => .error "malformed invoice"
    | some cur =>
      match readOpt rest with
      | none => .error "malformed invoice"
      | some (amt, rest) =>
        match readBlob rest with
        | none => .error "malformed invoice"
        | some (hash, rest) =>
          match readBlob rest with
          | none => .error "malformed invoice"
          | some (secret, rest) =>
            match readBlob rest with
            | none => .error "malformed invoice"
            | some (desc, rest) =>
              match rest with
              | [e, t] => .ok ⟨cur, amt, hash, secret, desc, e, t⟩
              | _ => .error "malformed invoice"

/-- Modelled from the spec (section 6): parse invoice text, rejecting any
string failing checksum or structural validation.  Models
`invoice_str.parse::<Bolt11Invoice>()`. -/
def parseInvoice (text : List Nat) : Except String Bolt11Invoice :=
  if text.getLast? = some (invoiceChecksum text.dropLast) then
    parseBody text.dropLast
  else .error "malformed invoice"

/-- `OffchainManager::decode_invoice`: parse the text and return the
invoice, propagating the parse error. -/
def decode_invoice (text : List Nat) : Except String Bolt11Invoice :=
  parseInvoice text

/-- `OffchainManager::generate_invoice`: convert the configured network to
a currency, then build the invoice through the channel engine's receive
path (`create_invoice_from_channelmanager`, modelled from its contract:
it binds a fresh payment hash/secret from the keys manager — passed here
as `payment_hash`/`payment_secret` — to the given amount, description and
expiry at the current time). -/
def generate_invoice (net : Network) (amount_msat : Option Nat)
    (description : List Nat) (expiring_in : Nat)
    (payment_hash payment_secret : List Nat) (timestamp : Nat) :
    Except String Bolt11Invoice :=
  match currency_try_from net with
  | .error e => .error e
  | .ok cur =>
    .ok ⟨cur, amount_msat, payment_hash, payment_secret, description,
         expiring_in, timestamp⟩

/-- A call submitted to the LDK channel engine by `pay_invoice`: either
`pay_zero_value_invoice` with an explicit amount or `pay_invoice`, both
with a 10-second retry timeout. -/
inductive PayCall where
  | payZeroValueInvoice (inv : Bolt11Invoice) (amount_msat : Nat)
  | payInvoiceCall (inv : Bolt11Invoice)
  deriving DecidableEq

/-- `OffchainManager::pay_invoice`: decode the invoice; when it carries no
amount, the `amount_msat` argument is mandatory and its absence is an
error raised before anything is submitted to the channel engine; otherwise
submit through the matching LDK payment entry point.  The second component
is the trace of channel-engine submissions. -/
def pay_invoice (invoice_str : List Nat) (amount_msat : Option Nat) :
    Except String Unit × List PayCall :=
  match decode_invoice invoice_str with
  | .error e => (.error e, [])
  | .ok inv =>
    match inv.amount_msat with
    | none =>
      match amount_msat with
      | none => (.error "invoice with no amount, and amount must be specified", [])
      | some amt => (.ok (), [.payZeroValueInvoice inv amt])
    | some _ => (.ok (), [.payInvoiceCall inv])

/-! ## Keysend (`OffchainManager::keysend`) -/

/-- The route/recipient parameters `keysend` submits to the channel
engine: the optional preimage, the payment id (the raw payment-hash
bytes), the keysend route parameters
(`PaymentParameters::for_keysend(destination, 40, false)`) and the
amount. -/
structure SpontaneousSubmission where
  preimage : Option (List Nat)
  paymentId : List Nat
  destination : Nat
  finalCltvExpiryDelta : Nat
  allowMpp : Bool
  finalValueMsat : Nat
  deriving DecidableEq

/-- Modelled from the LDK contract of
`ChannelManager::send_spontaneous_payment_with_retry`: the engine attaches
the given preimage (or draws its own entropy when none is given) and
returns the payment hash of the submitted payment, the SHA-256 of that
preimage. -/
def send_spontaneous_payment_with_retry (engineEntropy : List Nat)
    (sub : SpontaneousSubmission) : Except String (List Nat) :=
  match sub.preimage with
  | some p => .ok (sha256 p)
  | none => .ok (sha256 engineEntropy)

/-- `OffchainManager::keysend`: draw a fresh 32-byte preimage from the
keys manager (`get_secure_random_bytes`, passed here as `entropy`), set
`payment_hash = Sha256::hash(preimage)`, build keysend route parameters
with a final CLTV delta of 40 and multi-part payments disabled, and
submit with the preimage attached under `PaymentId(payment_hash)`.
Returns the submission made to the channel engine together with the
engine's result (the returned payment hash). -/
def keysend (entropy : List Nat) (destination : Nat) (amount_msat : Nat) :
    SpontaneousSubmission × Except String (List Nat) :=
  let payment_preimage := entropy
  let payment_hash := sha256 payment_preimage
  let sub : SpontaneousSubmission :=
    ⟨some payment_preimage, payment_hash, destination, 40, false, amount_msat⟩
  (sub, send_spontaneous_payment_with_retry [] sub)

/-! ## Sample states used by the concrete witnesses -/

/-- A sample wallet freshly watching one script-pubkey, with no UTXOs and
no checkpoints yet. -/
def sampleWallet : WalletState := ⟨[], [], [11]⟩

/-- A sample remote view: a two-checkpoint chain and one output of 100000
sats paying the watched script-pubkey, confirmed at height 1. -/
def sampleRemote : RemoteView :=
  ⟨[⟨1, 101⟩, ⟨2, 102⟩], [⟨21, 0, 11, 100000, false, 1⟩]⟩

/-- A sample amountless invoice. -/
def sampleNoAmountInvoice : Bolt11Invoice :=
  ⟨.bitcoin, none, [7, 7], [8], [100, 101], 3600, 12345⟩

/-- The transaction produced by the sample `create_transaction` run. -/
def sampleTx : Transaction := ⟨[⟨21, 0, 4294967293⟩], [(5, 50000), (1, 49999)]⟩

/-! ## Claim theorems -/

/-- C1: every `keysend(destination, amountMsat)` call attaches the freshly
drawn preimage to the payment submitted to the channel engine, uses
SHA-256 of that very preimage as the payment id, and the payment hash it
returns equals the same SHA-256 digest. -/
theorem keysend_hash_of_attached_preimage (entropy : List Nat)
    (destination amount_msat : Nat) :
    (keysend entropy destination amount_msat).1.preimage = some entropy ∧
    (keysend entropy destination amount_msat).1.paymentId = sha256 entropy ∧
    (keysend entropy destination amount_msat).2 = .ok (sha256 entropy) :=
  ⟨rfl, rfl, rfl⟩

/-- C2: when an invoice text decodes to an invoice without a fixed amount
and no amount override is given, `pay_invoice` fails with the
amount-required error and submits nothing to the channel engine. -/
theorem pay_invoice_amount_required (text : List Nat) (inv : Bolt11Invoice)
    (hdec : decode_invoice text = .ok inv) (hamt : inv.amount_msat = none) :
    pay_invoice text none =
      (.error "invoice with no amount, and amount must be specified", []) := by
  simp [pay_invoice, hdec, hamt]

/-- Witness for C2 at a concrete amountless invoice text. -/
theorem pay_invoice_amount_required_witness :
    pay_invoice (encodeInvoice sampleNoAmountInvoice) none =
      (.error "invoice with no amount, and amount must be specified", []) :=
  pay_invoice_amount_required (encodeInvoice sampleNoAmountInvoice)
    sampleNoAmountInvoice rfl rfl

/-- C3 counterexample: at a concrete call, `create_transaction` does
perform network I/O (the chain scan of its own `self.sync()?` call), so
it is false that no network I/O happens before input selection. -/
theorem create_transaction_no_network_io_counterexample :
    ¬ ∀ e ∈ (create_transaction Network.bitcoin sampleWallet sampleRemote
        5 50000 10).trace, e.isNet = false := by
  intro h
  exact absurd (h .netScan (by decide)) (by decide)

/-- C3 (amended): `create_transaction` first runs a chain sync itself
(performing the scan and height network calls) and then builds the spend
on the freshly synced UTXO view. -/
theorem create_transaction_syncs_first (net : Network) (s : WalletState)
    (r : RemoteView) (script amount fee_rate : Nat)
    (h : net = .bitcoin ∨ net = .testnet) :
    create_transaction net s r script amount fee_rate =
      ⟨tx_finish (syncState s r)
          (((TxBuilder.new.add_recipient script amount).fee_rate
            fee_rate).enable_rbf),
        syncState s r, [.netScan, .netGetHeight]⟩ := by
  rcases h with h | h <;> subst h <;> rfl

/-- Witness for the amended C3 at a concrete call. -/
theorem create_transaction_syncs_first_witness :
    create_transaction .bitcoin sampleWallet sampleRemote 5 50000 10 =
      ⟨tx_finish (syncState sampleWallet sampleRemote)
          (((TxBuilder.new.add_recipient 5 50000).fee_rate 10).enable_rbf),
        syncState sampleWallet sampleRemote, [.netScan, .netGetHeight]⟩ :=
  create_transaction_syncs_first .bitcoin sampleWallet sampleRemote 5 50000 10
    (Or.inl rfl)

/-- C5: at a wallet whose (synced) UTXO set holds exactly one output
confirmed at height 1, `list_transactions` still reports `confirmed = 0`:
the confirmation height is hard-coded to zero. -/
theorem list_transactions_confirmed_always_zero :
    (syncState sampleWallet sampleRemote).utxos.map LocalUtxo.height = [1] ∧
    list_transactions .bitcoin sampleWallet sampleRemote =
      .ok [⟨21, 0, false, 0, amount_msat_of 100000⟩] :=
  ⟨rfl, rfl⟩

/-- C6: the `amount_msat` reported by `list_transactions` for a UTXO of
`v` satoshis comes from the `Amount::from_btc(v as f64)` round trip, which
inflates it by `10 ^ 8`; in particular it differs from `v * 1000` for
every non-zero `v` (stated on the range where the `f64` round trip is
exact, `v * 10 ^ 8 ≤ 2 ^ 53`). -/
theorem amount_msat_reported_lossy (v : Nat) (hpos : 0 < v)
    (hexact : v ≤ 90000000) :
    amount_msat_of v = v * 100000000 * 1000 ∧ amount_msat_of v ≠ v * 1000 := by
  unfold amount_msat_of from_btc_to_sat
  omega

/-- Witness for C6 at a concrete 100000-sat UTXO value. -/
theorem amount_msat_reported_lossy_witness :
    amount_msat_of 100000 = 100000 * 100000000 * 1000 ∧
      amount_msat_of 100000 ≠ 100000 * 1000 :=
  amount_msat_reported_lossy 100000 (by decide) (by decide)

/-- Every transaction successfully produced by `tx_finish` under a builder
with RBF enabled carries BIP125 replace-by-fee signaling. -/
theorem tx_finish_rbf_sequences (s : WalletState) (b : TxBuilder)
    (tx : Transaction) (hrbf : b.rbf = true) (h : tx_finish s b = .ok tx) :
    tx.signalsRbf = true := by
  simp only [tx_finish] at h
  split at h
  · exact Except.noConfusion h
  next sel hsel =>
    split at h
    · exact Except.noConfusion h
    next hne =>
      injection h with h
      subst h
      cases sel with
      | nil => simp at hne
      | cons u us =>
        simp [Transaction.signalsRbf, rbfSequence, hrbf]

/-- C8: every transaction successfully produced by `create_transaction`
has replace-by-fee signaling enabled (the builder chain always calls
`enable_rbf`). -/
theorem create_transaction_enables_rbf (net : Network) (s : WalletState)
    (r : RemoteView) (script amount fee_rate : Nat) (tx : Transaction)
    (h : (create_transaction net s r script amount fee_rate).result = .ok tx) :
    tx.signalsRbf = true := by
  cases net with
  | bitcoin => exact tx_finish_rbf_sequences _ _ _ rfl h
  | testnet => exact tx_finish_rbf_sequences _ _ _ rfl h
  | signet => exact Except.noConfusion h
  | regtest => exact Except.noConfusion h

/-- Witness for C8: the sample build succeeds and its transaction signals
replace-by-fee. -/
theorem create_transaction_enables_rbf_witness :
    sampleTx.signalsRbf = true :=
  create_transaction_enables_rbf .bitcoin sampleWallet sampleRemote 5 50000 10
    sampleTx rfl

/-- C9: for every network that is not one of the two supported ones,
`sync` fails fast with the `network not supported` error, mutates no
wallet state, and performs no network call at all. -/
theorem sync_unsupported_network_fails (net : Network) (s : WalletState)
    (r : RemoteView) (h : net ≠ .bitcoin ∧ net ≠ .testnet) :
    sync net s r = ⟨.error "network not supported", s, []⟩ := by
  cases net with
  | bitcoin => exact absurd rfl h.1
  | testnet => exact absurd rfl h.2
  | signet => rfl
  | regtest => rfl

/-- Witness for C9 on the regtest network. -/
theorem sync_unsupported_network_fails_witness :
    sync .regtest sampleWallet sampleRemote =
      ⟨.error "network not supported", sampleWallet, []⟩ :=
  sync_unsupported_network_fails .regtest sampleWallet sampleRemote
    ⟨by decide, by decide⟩

/-- C10: `get_onchain_balance` first syncs and then returns exactly the
confirmed portion of the balance of the synced wallet: the sum of the
unspent UTXOs with a non-zero confirmation height, excluding all
unconfirmed funds. -/
theorem get_onchain_balance_confirmed_only (net : Network) (s : WalletState)
    (r : RemoteView) (h : net = .bitcoin ∨ net = .testnet) :
    get_onchain_balance net s r =
      .ok (((syncState s r).utxos.filter
          (fun u => !u.spent && u.height != 0)).map LocalUtxo.value).sum := by
  rcases h with h | h <;> subst h <;> rfl

/-- Witness for C10: the sample wallet syncs to one confirmed 100000-sat
UTXO and the balance call reports exactly it. -/
theorem get_onchain_balance_confirmed_only_witness :
    get_onchain_balance .bitcoin sampleWallet sampleRemote = .ok 100000 :=
  (get_onchain_balance_confirmed_only .bitcoin sampleWallet sampleRemote
      (Or.inl rfl)).trans (by rfl)

/-! ## Invoice round trip (C7) -/

/-- Parsing a currency symbol inverts encoding. -/
theorem decodeCurrency_currencyCode (c : Currency) :
    decodeCurrency (currencyCode c) = some c := by
  cases c <;> rfl

/-- Reading an optional amount inverts encoding. -/
theorem readOpt_encodeOpt (x : Option Nat) (rest : List Nat) :
    readOpt (encodeOpt x ++ rest) = some (x, rest) := by
  cases x <;> rfl

/-- Reading a length-prefixed field inverts encoding. -/
theorem readBlob_encodeBlob (l rest : List Nat) :
    readBlob (encodeBlob l ++ rest) = some (l, rest) := by
  show readBlob (l.length :: (l ++ rest)) = some (l, rest)
  simp [readBlob, List.take_left, List.drop_left, List.length_append]

/-- Parsing the invoice body inverts encoding. -/
theorem parseBody_encodeBody (i : Bolt11Invoice) :
    parseBody (encodeBody i) = .ok i := by
  obtain ⟨cur, amt, ph, ps, d, e, t⟩ := i
  have h1 : encodeBody ⟨cur, amt, ph, ps, d, e, t⟩ =
      currencyCode cur :: (encodeOpt amt ++ (encodeBlob ph ++ (encodeBlob ps ++
        (encodeBlob d ++ [e, t])))) := by
    simp [encodeBody, List.append_assoc]
  rw [h1]
  simp [parseBody, decodeCurrency_currencyCode, readOpt_encodeOpt,
    readBlob_encodeBlob]

/-- Decoding inverts encoding for every invoice. -/
theorem decode_encode_invoice (i : Bolt11Invoice) :
    decode_invoice (encodeInvoice i) = .ok i := by
  simp [decode_invoice, parseInvoice, encodeInvoice, List.dropLast_concat,
    List.getLast?_concat, parseBody_encodeBody]

/-- C7: every invoice produced by `generate_invoice` decodes back from its
text, recovering an invoice with the identical amount, description and
payment hash. -/
theorem generate_invoice_roundtrip (net : Network) (amount_msat : Option Nat)
    (description : List Nat) (expiring_in : Nat)
    (payment_hash payment_secret : List Nat) (timestamp : Nat)
    (inv : Bolt11Invoice)
    (h : generate_invoice net amount_msat description expiring_in
        payment_hash payment_secret timestamp = .ok inv) :
    decode_invoice (encodeInvoice inv) = .ok inv ∧
      inv.amount_msat = amount_msat ∧ inv.description = description ∧
      inv.payment_hash = payment_hash := by
  cases net <;>
    · injection h with h
      subst h
      exact ⟨decode_encode_invoice _, rfl, rfl, rfl⟩

/-- A sample generated invoice. -/
def sampleGenInvoice : Bolt11Invoice :=
  ⟨.bitcoin, some 42000, [9], [10], [100], 3600, 777⟩

/-- Witness for C7 at a concrete generated invoice. -/
theorem generate_invoice_roundtrip_witness :
    decode_invoice (encodeInvoice sampleGenInvoice) = .ok sampleGenInvoice ∧
      sampleGenInvoice.amount_msat = some 42000 ∧
      sampleGenInvoice.description = [100] ∧
      sampleGenInvoice.payment_hash = [9] :=
  generate_invoice_roundtrip .bitcoin (some 42000) [100] 3600 [9] [10] 777
    sampleGenInvoice rfl

/-! ## Sync idempotence (C4) -/

/-- `applyOne` never changes the txid of a tracked UTXO. -/
theorem applyOne_txid (outs : List RemoteOut) (u : LocalUtxo) :
    (applyOne outs u).txid = u.txid := by
  unfold applyOne
  cases outs.find? (fun o => o.txid == u.txid && o.vout == u.vout) <;> rfl

/-- `applyOne` never changes the vout of a tracked UTXO. -/
theorem applyOne_vout (outs : List RemoteOut) (u : LocalUtxo) :
    (applyOne outs u).vout = u.vout := by
  unfold applyOne
  cases outs.find? (fun o => o.txid == u.txid && o.vout == u.vout) <;> rfl

/-- `applyOne` is idempotent on each tracked UTXO. -/
theorem applyOne_applyOne (outs : List RemoteOut) (u : LocalUtxo) :
    applyOne outs (applyOne outs u) = applyOne outs u := by
  cases hf : outs.find? (fun o => o.txid == u.txid && o.vout == u.vout) with
  | none => simp only [applyOne, hf]
  | some o => simp only [applyOne, hf, updateUtxo]

/-- Re-applying the remote reports to the tracked part changes nothing. -/
theorem map_applyOne_idem (us : List LocalUtxo) (outs : List RemoteOut) :
    (us.map (applyOne outs)).map (applyOne outs) = us.map (applyOne outs) := by
  rw [List.map_map]
  exact List.map_congr_left (fun u _ => applyOne_applyOne outs u)

/-- When remote outpoints are unique, `applyOne` fixes a UTXO freshly
created from one of the reports. -/
theorem applyOne_toUtxo (outs : List RemoteOut) (o : RemoteOut)
    (ho : o ∈ outs) (hnodup : (outs.map RemoteOut.outpoint).Nodup) :
    applyOne outs (RemoteOut.toUtxo o) = RemoteOut.toUtxo o := by
  unfold applyOne
  cases hf : outs.find? (fun x => x.txid == (RemoteOut.toUtxo o).txid &&
      x.vout == (RemoteOut.toUtxo o).vout) with
  | none => rfl
  | some o' =>
    have hp := List.find?_some hf
    have hm := List.mem_of_find?_eq_some hf
    simp only [RemoteOut.toUtxo, Bool.and_eq_true, beq_iff_eq] at hp
    have heq : o' = o :=
      List.inj_on_of_nodup_map hnodup hm ho
        (by unfold RemoteOut.outpoint; rw [hp.1, hp.2])
    subst heq
    rfl

/-- After one application pass, every reported outpoint is tracked. -/
theorem newOuts_applyOuts (us : List LocalUtxo) (outs : List RemoteOut) :
    newOuts (applyOuts us outs) outs = [] := by
  rw [newOuts, List.filter_eq_nil_iff]
  intro o ho
  simp only [Bool.not_eq_true', Bool.not_eq_false]
  rw [applyOuts, List.any_append]
  cases hus : us.any (fun u => u.txid == o.txid && u.vout == o.vout) with
  | true =>
    have hcomp : ((fun u : LocalUtxo => u.txid == o.txid && u.vout == o.vout) ∘
        applyOne outs) = (fun u => u.txid == o.txid && u.vout == o.vout) := by
      funext u
      simp only [Function.comp_apply, applyOne_txid, applyOne_vout]
    rw [List.any_map, hcomp, hus, Bool.true_or]
  | false =>
    have hmem : o ∈ newOuts us outs := by
      rw [newOuts]
      exact List.mem_filter.mpr ⟨ho, by rw [hus]; rfl⟩
    have : ((newOuts us outs).map RemoteOut.toUtxo).any
        (fun u => u.txid == o.txid && u.vout == o.vout) = true := by
      rw [List.any_eq_true]
      exact ⟨RemoteOut.toUtxo o, List.mem_map_of_mem _ hmem, by
        simp [RemoteOut.toUtxo]⟩
    rw [this, Bool.or_true]

/-- Applying an unchanged remote report set a second time is a no-op on
the UTXO set, provided the remote reports one entry per outpoint. -/
theorem applyOuts_idem (us : List LocalUtxo) (outs : List RemoteOut)
    (hnodup : (outs.map RemoteOut.outpoint).Nodup) :
    applyOuts (applyOuts us outs) outs = applyOuts us outs := by
  have hL : (applyOuts us outs).map (applyOne outs) = applyOuts us outs := by
    rw [applyOuts, List.map_append]
    congr 1
    · exact map_applyOne_idem us outs
    · rw [List.map_map]
      refine List.map_congr_left ?_
      intro o ho
      have ho' : o ∈ outs := by
        rw [newOuts] at ho
        exact (List.mem_filter.mp ho).1
      simp only [Function.comp_apply]
      exact applyOne_toUtxo outs o ho' hnodup
  conv_lhs => rw [applyOuts]
  rw [newOuts_applyOuts, List.map_nil, List.append_nil, hL]

/-- Every checkpoint stored by `syncState` is part of the remote chain. -/
theorem syncState_checkpoints_sub (s : WalletState) (r : RemoteView) :
    ∀ c ∈ (syncState s r).checkpoints, c ∈ r.chain := by
  intro c hc
  simp only [syncState] at hc
  rw [List.mem_append] at hc
  rcases hc with hc | hc
  · exact of_decide_eq_true (List.mem_filter.mp hc).2
  · exact (List.mem_filter.mp hc).1

/-- Every remote checkpoint is stored by `syncState`. -/
theorem syncState_chain_sub (s : WalletState) (r : RemoteView) :
    ∀ c ∈ r.chain, c ∈ (syncState s r).checkpoints := by
  intro c hc
  simp only [syncState]
  rw [List.mem_append]
  by_cases h : c ∈ s.checkpoints.filter (fun c => decide (c ∈ r.chain))
  · exact Or.inl h
  · exact Or.inr (List.mem_filter.mpr ⟨hc, by simp [h]⟩)

/-- A wallet state that already agrees with the remote view is a fixpoint
of `syncState`. -/
theorem syncState_fixpoint (t : WalletState) (r : RemoteView)
    (hsub : ∀ c ∈ t.checkpoints, c ∈ r.chain)
    (hsup : ∀ c ∈ r.chain, c ∈ t.checkpoints)
    (hutxos : applyOuts t.utxos
        (r.outs.filter (fun o => o.spk ∈ t.spks)) = t.utxos) :
    syncState t r = t := by
  have hdiv : divergeHeight t.checkpoints r = none := by
    unfold divergeHeight
    have hnil : t.checkpoints.filter (fun c => decide (c ∉ r.chain)) = [] := by
      rw [List.filter_eq_nil_iff]
      intro c hc
      simp [hsub c hc]
    rw [hnil]
    rfl
  have hkeep : t.checkpoints.filter (fun c => decide (c ∈ r.chain)) =
      t.checkpoints := by
    rw [List.filter_eq_self]
    intro c hc
    simp [hsub c hc]
  simp only [syncState]
  rw [hdiv, hkeep]
  have hnew : r.chain.filter (fun c => decide (c ∉ t.checkpoints)) = [] := by
    rw [List.filter_eq_nil_iff]
    intro c hc
    simp [hsup c hc]
  rw [hnew]
  have hro : rollback t.utxos none = t.utxos := rfl
  rw [hro, List.append_nil, hutxos]

/-- Running `syncState` a second time against an unchanged remote view is
the identity, provided the remote reports one entry per outpoint. -/
theorem syncState_idem (s : WalletState) (r : RemoteView)
    (hnodup : (r.outs.map RemoteOut.outpoint).Nodup) :
    syncState (syncState s r) r = syncState s r := by
  apply syncState_fixpoint
  · exact syncState_checkpoints_sub s r
  · exact syncState_chain_sub s r
  · have hspks : (syncState s r).spks = s.spks := rfl
    rw [hspks]
    have hut : (syncState s r).utxos =
        applyOuts (rollback s.utxos (divergeHeight s.checkpoints r))
          (r.outs.filter (fun o => o.spk ∈ s.spks)) := rfl
    rw [hut]
    exact applyOuts_idem _ _
      (List.Nodup.sublist
        (List.Sublist.map _ (List.filter_sublist _)) hnodup)

/-- C4: sync is idempotent — running `sync` a second time against an
unchanged remote chain view leaves the wallet state (UTXO set and
checkpoint ledger) identical, for a remote view reporting one entry per
outpoint. -/
theorem sync_idempotent (net : Network) (s : WalletState) (r : RemoteView)
    (hnodup : (r.outs.map RemoteOut.outpoint).Nodup) :
    (sync net (sync net s r).state r).state = (sync net s r).state := by
  cases net with
  | bitcoin => exact syncState_idem s r hnodup
  | testnet => exact syncState_idem s r hnodup
  | signet => rfl
  | regtest => rfl

/-- Witness for C4 at the sample wallet and remote view. -/
theorem sync_idempotent_witness :
    (sync .bitcoin (sync .bitcoin sampleWallet sampleRemote).state
        sampleRemote).state = (sync .bitcoin sampleWallet sampleRemote).state :=
  sync_idempotent .bitcoin sampleWallet sampleRemote (by decide)

end Lampo
